import Mathlib

/-
  Verification of the bb8 asynchronous connection pool (src/bb8/src/lib.rs).

  Shallow embedding conventions:
  * Instants and durations are modelled as natural numbers of milliseconds.
    Rust Instant subtraction becomes truncated Nat subtraction.
  * The u32 counters num_conns and pending_conns become Nat.
  * The locked PoolInternals struct (lib.rs lines 356-366) becomes PoolState.
    A waiter (a oneshot Sender) is modelled by its liveness: true when the
    receiving side is still present, so that send succeeds, false when the
    receiver is gone, so that send fails and the loop in put_idle_conn retries.
  * Each critical section of the single tokio Mutex is one atomic step of the
    Step relation below; awaits performed while the lock is held stay inside
    the same step, awaits performed with the lock released separate steps.
  * Fallible code returns Except; the tokio timeout wrapper becomes an Option
    input (none when the deadline elapsed before the inner future completed).
-/

namespace BB8

/-- Conn record, lib.rs lines 156-163: a live connection with its birth instant. -/
structure Conn (C : Type) where
  conn : C
  birth : Nat
deriving DecidableEq

/-- IdleConn record, lib.rs lines 165-171: a parked connection with the instant it became idle. -/
structure IdleConn (C : Type) where
  conn : Conn C
  idle_start : Nat
deriving DecidableEq

/-- PoolInternals, lib.rs lines 356-366. Waiters are modelled by receiver liveness. -/
structure PoolState (C : Type) where
  waiters : List Bool
  conns : List (IdleConn C)
  num_conns : Nat
  pending_conns : Nat
deriving DecidableEq

/-- The freshly built internals, lib.rs lines 563-568. -/
def initState {C : Type} : PoolState C :=
  { waiters := [], conns := [], num_conns := 0, pending_conns := 0 }

/-- PoolInternals::put_idle_conn, lib.rs lines 372-387: pop waiters from the front;
a live waiter receives the record and the loop stops; a dead waiter is discarded and
the loop retries; with no waiter left the record is pushed on the back of the idle
deque. Result: remaining waiters, resulting idle deque, and whether a waiter got the
record. -/
def put_idle_conn {C : Type} : List Bool → List (IdleConn C) → IdleConn C →
    List Bool × List (IdleConn C) × Bool
  | [], conns, conn => ([], conns ++ [conn], false)
  | w :: ws, conns, conn => if w then (ws, conns, true) else put_idle_conn ws conns conn

/-- Effect of put_idle_conn on the full locked state. -/
def putIdleStep {C : Type} (s : PoolState C) (ic : IdleConn C) : PoolState C :=
  let r := put_idle_conn s.waiters s.conns ic
  { s with waiters := r.1, conns := r.2.1 }

/-- drop_connections, lib.rs lines 511-527: decrement num_conns by the number of
dropped connections; the Bool records whether a replenishing task is spawned
(the capacity test on line 521). -/
def drop_connections {C : Type} (maxSize : Nat) (s : PoolState C) (dropped : Nat) :
    PoolState C × Bool :=
  let s2 := { s with num_conns := s.num_conns - dropped }
  (s2, decide (s2.num_conns + s2.pending_conns < maxSize))

/-- The retain predicate of the reaper, lib.rs lines 541-550. -/
def reapKeep {C : Type} (idleTimeout maxLifetime : Option Nat) (now : Nat)
    (ic : IdleConn C) : Bool :=
  (match idleTimeout with
    | some t => decide (now - ic.idle_start < t)
    | none => true) &&
  (match maxLifetime with
    | some l => decide (now - ic.conn.birth < l)
    | none => true)

/-- One reaper tick under the lock, lib.rs lines 537-553: retain the entries that
pass every configured predicate, then drop_connections with the count removed. -/
def reapStep {C : Type} (maxSize : Nat) (idleTimeout maxLifetime : Option Nat) (now : Nat)
    (s : PoolState C) : PoolState C × Bool :=
  let conns2 := s.conns.filter (reapKeep idleTimeout maxLifetime now)
  let dropped := s.conns.length - conns2.length
  drop_connections maxSize { s with conns := conns2 } dropped

/-- The success critical section of add_connection, lib.rs lines 481-492: decrement
pending_conns, increment num_conns, insert a record whose birth and idle_start are
both the current instant. -/
def connOkState {C : Type} (s : PoolState C) (c : C) (now : Nat) : PoolState C :=
  putIdleStep
    { s with pending_conns := s.pending_conns - 1, num_conns := s.num_conns + 1 }
    { conn := { conn := c, birth := now }, idle_start := now }

/-- One observed result of manager.connect, with the instant at which it resolved. -/
inductive Outcome (C E : Type) where
  | ok (c : C) (now : Nat)
  | fail (e : E) (now : Nat)
deriving DecidableEq

/-- The retry loop of add_connection, lib.rs lines 477-506, driven by a list of
connect outcomes. Returns the list of backoff sleeps performed and, when the loop
finished within the given outcomes, the resulting locked state and the result.
The failure branch aborts exactly when now - start > connection_timeout
(lib.rs line 495); otherwise it updates delay as on lines 500-501 and sleeps. -/
def connectLoop {C E : Type} (ct start : Nat) (s : PoolState C) :
    Nat → List (Outcome C E) → List Nat × Option (PoolState C × Except E Unit)
  | _, [] => ([], none)
  | _, Outcome.ok c now :: _ => ([], some (connOkState s c now, Except.ok ()))
  | delay, Outcome.fail e now :: rest =>
    if ct < now - start then
      ([], some ({ s with pending_conns := s.pending_conns - 1 }, Except.error e))
    else
      let d := min (ct / 2) (max 200 delay * 2)
      let r := connectLoop ct start s d rest
      (d :: r.1, r.2)

/-- add_connection, lib.rs lines 459-507: the guarded entry section (lines 463-469)
followed by the retry loop starting with delay zero (line 478). -/
def add_connection {C E : Type} (maxSize ct : Nat) (s : PoolState C)
    (outcomes : List (Outcome C E)) : List Nat × Option (PoolState C × Except E Unit) :=
  if maxSize ≤ s.num_conns + s.pending_conns then ([], some (s, Except.ok ()))
  else connectLoop ct 0 { s with pending_conns := s.pending_conns + 1 } 0 outcomes

/-- Pool::put_back, lib.rs lines 666-679: a broken connection is dropped via
drop_connections, otherwise an idle record is rebuilt from the birth argument with
idle_start set to the current instant (IdleConn::make_idle, lines 177-184) and
inserted with put_idle_conn. -/
def put_back {C : Type} (maxSize birth : Nat) (c : C) (broken : Bool) (now : Nat)
    (s : PoolState C) : PoolState C :=
  if broken then (drop_connections maxSize s 1).1
  else putIdleStep s { conn := { conn := c, birth := birth }, idle_start := now }

/-- PooledConnection, lib.rs lines 759-766: the checkout instant recorded by get
(line 739) together with the checked out Conn record. -/
structure PooledConnection (C : Type) where
  checkout : Nat
  conn : Conn C

/-- The Drop impl for PooledConnection, lib.rs lines 798-809: it calls
put_back with self.checkout as the birth argument. -/
def pooledConnectionDrop {C : Type} (maxSize : Nat) (pc : PooledConnection C)
    (broken : Bool) (now : Nat) (s : PoolState C) : PoolState C :=
  put_back maxSize pc.checkout pc.conn.conn broken now s

/-- The return performed by Pool::run, lib.rs lines 654 and 660: it calls
put_back with the birth taken from the checked out Conn record. -/
def runPutBack {C : Type} (maxSize : Nat) (conn : Conn C) (broken : Bool) (now : Nat)
    (s : PoolState C) : PoolState C :=
  put_back maxSize conn.birth conn.conn broken now s

/-- The number of connector tasks pushed by replenish_idle_connections,
lib.rs lines 597-612: the loop "for _ in idle..max(idle, min(desired, idle +
slots_available))" runs max(idle, min(desired, idle + slots)) - idle times. -/
def replenish_counts {C : Type} (maxSize : Nat) (minIdle : Option Nat)
    (s : PoolState C) : Nat :=
  let slots_available := maxSize - s.num_conns - s.pending_conns
  let idle := s.conns.length
  let desired := minIdle.getD 0
  max idle (min desired (idle + slots_available)) - idle

/-- RunError, lib.rs lines 74-81. -/
inductive RunError (E : Type) where
  | user (e : E)
  | timedOut
deriving DecidableEq

/-- SharedPool::or_timeout, lib.rs lines 414-427. The input is none when the
deadline connection_timeout elapsed before the wrapped future completed, and
some r when the future completed with r before the deadline. -/
def or_timeout {E T : Type} (completed : Option (Except E T)) : Except E (Option T) :=
  match completed with
  | some (Except.ok item) => Except.ok (some item)
  | some (Except.error e) => Except.error e
  | none => Except.ok none

/-- The waiter phase of Pool::get_conn, lib.rs lines 727-730: the oneshot receiver
resolves with a Conn or with Canceled (modelled Unit); every case other than a
delivered connection becomes RunError::TimedOut. -/
def getConnWait {C E : Type} (rxResult : Option (Except Unit (Conn C))) :
    Except (RunError E) (Conn C) :=
  match or_timeout rxResult with
  | Except.ok (some conn) => Except.ok conn
  | _ => Except.error RunError.timedOut

/-- SharedPool::sink_error, lib.rs lines 405-412: an error is delivered to the
error sink (modelled as a list of delivered errors) and replaced by unit. -/
def sink_error {E T : Type} (sunk : List E) (r : Except E T) : Except Unit T × List E :=
  match r with
  | Except.ok t => (Except.ok t, sunk)
  | Except.error e => (Except.error (), sunk ++ [e])

/-- The sequence of backoff sleeps produced by n consecutive retried failures of
the connect loop, starting from the given current delay: each sleep is
min (ct / 2) (max 200 delay * 2), matching lib.rs lines 500-501. -/
def backoffDelays (ct : Nat) : Nat → Nat → List Nat
  | 0, _ => []
  | n + 1, delay =>
    let d := min (ct / 2) (max 200 delay * 2)
    d :: backoffDelays ct n d

/-- One atomic critical section of the internals Mutex. Each constructor is one
lock acquisition of the source, exactly as it mutates the locked state.
The hypothesis 0 < pending_conns of the two connector completion steps records
that the decrements on lines 489 and 497 are executed only by a connector task
that previously performed the increment of line 468 and performs exactly one of
the two decrements. Note that the checkout steps cover the whole section from
line 685 to line 711: the lock guard stays alive across the is_valid await, so
pop and failure accounting form a single critical section. The enqueueWaiter
step (lines 716-725) pushes the waiter unconditionally: the emptiness of the
idle deque was only observed under the earlier, already released, acquisition
of the scan loop. -/
inductive Step {C : Type} (maxSize : Nat) : PoolState C → PoolState C → Prop where
  | connBeginFull (s : PoolState C) (h : maxSize ≤ s.num_conns + s.pending_conns) :
      Step maxSize s s
  | connBegin (s : PoolState C) (h : s.num_conns + s.pending_conns < maxSize) :
      Step maxSize s { s with pending_conns := s.pending_conns + 1 }
  | connOk (s : PoolState C) (c : C) (now : Nat) (h : 0 < s.pending_conns) :
      Step maxSize s (connOkState s c now)
  | connFail (s : PoolState C) (h : 0 < s.pending_conns) :
      Step maxSize s { s with pending_conns := s.pending_conns - 1 }
  | checkoutHit (s : PoolState C) (ic : IdleConn C) (rest : List (IdleConn C))
      (h : s.conns = ic :: rest) : Step maxSize s { s with conns := rest }
  | checkoutInvalid (s : PoolState C) (ic : IdleConn C) (rest : List (IdleConn C))
      (h : s.conns = ic :: rest) :
      Step maxSize s (drop_connections maxSize { s with conns := rest } 1).1
  | putBackOk (s : PoolState C) (c : C) (birth now : Nat) :
      Step maxSize s (putIdleStep s { conn := { conn := c, birth := birth }, idle_start := now })
  | putBackBroken (s : PoolState C) :
      Step maxSize s (drop_connections maxSize s 1).1
  | reapTick (s : PoolState C) (idleT maxLt : Option Nat) (now : Nat) :
      Step maxSize s (reapStep maxSize idleT maxLt now s).1
  | enqueueWaiter (s : PoolState C) :
      Step maxSize s { s with waiters := s.waiters ++ [true] }
  | waiterAbandon (s : PoolState C) (pre post : List Bool)
      (h : s.waiters = pre ++ true :: post) :
      Step maxSize s { s with waiters := pre ++ false :: post }

/-- Reachability through critical sections, from a given state. -/
inductive Reaches {C : Type} (maxSize : Nat) : PoolState C → PoolState C → Prop where
  | refl (s : PoolState C) : Reaches maxSize s s
  | step {s t u : PoolState C} (h1 : Reaches maxSize s t) (h2 : Step maxSize t u) :
      Reaches maxSize s u

theorem putIdleStep_num_conns {C : Type} (s : PoolState C) (ic : IdleConn C) :
    (putIdleStep s ic).num_conns = s.num_conns := rfl

theorem putIdleStep_pending_conns {C : Type} (s : PoolState C) (ic : IdleConn C) :
    (putIdleStep s ic).pending_conns = s.pending_conns := rfl

theorem step_counter_le {C : Type} (maxSize : Nat) {s t : PoolState C} (h : Step maxSize s t)
    (hs : s.num_conns + s.pending_conns ≤ maxSize) :
    t.num_conns + t.pending_conns ≤ maxSize := by
  cases h with
  | connBeginFull h1 => exact hs
  | connBegin h1 => simp only []; omega
  | connOk c now h1 =>
      have e1 : (connOkState s c now).num_conns = s.num_conns + 1 := rfl
      have e2 : (connOkState s c now).pending_conns = s.pending_conns - 1 := rfl
      omega
  | connFail h1 => simp only []; omega
  | checkoutHit ic rest h1 => exact hs
  | checkoutInvalid ic rest h1 =>
      have e1 : (drop_connections maxSize { s with conns := rest } 1).1.num_conns
          = s.num_conns - 1 := rfl
      have e2 : (drop_connections maxSize { s with conns := rest } 1).1.pending_conns
          = s.pending_conns := rfl
      omega
  | putBackOk c birth now => exact hs
  | putBackBroken =>
      have e1 : (drop_connections maxSize s 1).1.num_conns = s.num_conns - 1 := rfl
      have e2 : (drop_connections maxSize s 1).1.pending_conns = s.pending_conns := rfl
      omega
  | reapTick idleT maxLt now =>
      have e1 : (reapStep maxSize idleT maxLt now s).1.num_conns
          = s.num_conns -
            (s.conns.length - (s.conns.filter (reapKeep idleT maxLt now)).length) := rfl
      have e2 : (reapStep maxSize idleT maxLt now s).1.pending_conns = s.pending_conns := rfl
      omega
  | enqueueWaiter => exact hs
  | waiterAbandon pre post h1 => exact hs

/-- C1: at every release of the internals lock, num_conns + pending_conns does not
exceed max_size. Every critical section of the source preserves the bound: the only
increment of pending_conns (add_connection, lines 463-468) is guarded by the
capacity check under the same lock acquisition, and the increment of num_conns
(line 490) happens together with a decrement of pending_conns in one critical
section, so no interleaving of checkouts, returns, connectors, replenishers and
reaper ticks pushes the sum past max_size. -/
theorem claim_C1_counter_invariant {C : Type} (maxSize : Nat) (s : PoolState C)
    (h : Reaches maxSize initState s) : s.num_conns + s.pending_conns ≤ maxSize := by
  induction h with
  | refl => exact Nat.zero_le maxSize
  | step h1 h2 ih => exact step_counter_le maxSize h2 ih

/-- Witness for C1: a concrete three-section run, connector begin then connector
success, inside a pool with max_size 2. -/
theorem claim_C1_witness :
    (connOkState (C := Unit) { waiters := [], conns := [], num_conns := 0, pending_conns := 1 }
        () 5).num_conns
      + (connOkState (C := Unit) { waiters := [], conns := [], num_conns := 0, pending_conns := 1 }
        () 5).pending_conns ≤ 2 :=
  claim_C1_counter_invariant 2 _
    (Reaches.step (Reaches.step (Reaches.refl _) (Step.connBegin _ (by decide)))
      (Step.connOk _ () 5 (by decide)))

/-- C2 counterexample: the global implication (non-empty waiter queue implies empty
idle deque at every lock release) fails on a reachable interleaving. The scan loop
of get_conn observes an empty idle deque and releases the lock; a connector then
completes and parks its record in the empty idle deque (no waiter is queued yet);
get_conn then reacquires the lock (lines 716-717) and pushes its waiter without
re-checking the idle deque. The resulting state has one waiter and one idle entry. -/
theorem claim_C2_counterexample :
    ¬ ∀ (s : PoolState Unit), Reaches 10 initState s → s.waiters ≠ [] → s.conns = [] := by
  intro h
  have h2 := h _
    (Reaches.step
      (Reaches.step (Reaches.step (Reaches.refl _) (Step.connBegin _ (by decide)))
        (Step.connOk _ () 0 (by decide)))
      (Step.enqueueWaiter _))
  exact absurd (h2 (by decide)) (by decide)

theorem put_idle_conn_no_live {C : Type} :
    ∀ (ws : List Bool) (cs : List (IdleConn C)) (ic : IdleConn C),
      (∀ w ∈ ws, w = false) → put_idle_conn ws cs ic = ([], cs ++ [ic], false)
  | [], cs, ic, _ => rfl
  | w :: ws, cs, ic, hall => by
    have hw : w = false := hall w (List.mem_cons_self w ws)
    subst hw
    simpa [put_idle_conn] using
      put_idle_conn_no_live ws cs ic (fun x hx => hall x (List.mem_cons_of_mem _ hx))

theorem put_idle_conn_first_live {C : Type} :
    ∀ (k : Nat) (rest : List Bool) (cs : List (IdleConn C)) (ic : IdleConn C),
      put_idle_conn (List.replicate k false ++ true :: rest) cs ic = (rest, cs, true)
  | 0, rest, cs, ic => by simp [put_idle_conn]
  | k + 1, rest, cs, ic => by
    simpa [put_idle_conn, List.replicate_succ] using put_idle_conn_first_live k rest cs ic

/-- C2 amended: the local delivery protocol of put_idle_conn does hold: the record is
sent to the front-most live waiter, permanently discarding the dead waiters popped
before it, and it is pushed onto the back of the idle deque only when no live waiter
is queued; but the global implication (waiters non-empty implies idle empty whenever
the lock is free) fails, because get_conn enqueues its waiter under a fresh lock
acquisition without re-checking the idle deque (see the counterexample). -/
theorem claim_C2_put_idle_conn_spec :
    ∀ (ws : List Bool) (cs : List (IdleConn Unit)) (ic : IdleConn Unit),
      ((∀ w ∈ ws, w = false) → put_idle_conn ws cs ic = ([], cs ++ [ic], false)) ∧
      (∀ (k : Nat) (rest : List Bool), ws = List.replicate k false ++ true :: rest →
        put_idle_conn ws cs ic = (rest, cs, true)) := by
  intro ws cs ic
  refine ⟨fun hall => put_idle_conn_no_live ws cs ic hall, fun k rest hws => ?_⟩
  subst hws
  exact put_idle_conn_first_live k rest cs ic

/-- Witness for C2 amended: two dead waiters let the record park in the deque; a
dead waiter followed by a live one delivers the record and discards the dead one. -/
theorem claim_C2_witness :
    put_idle_conn (C := Unit) [false, false] []
        { conn := { conn := (), birth := 0 }, idle_start := 0 }
      = ([], [{ conn := { conn := (), birth := 0 }, idle_start := 0 }], false) ∧
    put_idle_conn (C := Unit) [false, true]
        [{ conn := { conn := (), birth := 3 }, idle_start := 4 }]
        { conn := { conn := (), birth := 0 }, idle_start := 0 }
      = ([], [{ conn := { conn := (), birth := 3 }, idle_start := 4 }], true) :=
  ⟨(claim_C2_put_idle_conn_spec [false, false] [] _).1 (by decide),
   (claim_C2_put_idle_conn_spec [false, true]
      [{ conn := { conn := (), birth := 3 }, idle_start := 4 }] _).2 1 [] rfl⟩

/-- Events of a task: mutex acquisition and release, and the suspension points of
the source (manager.connect, manager.is_valid, the backoff sleep, and the await of
the waiter rendezvous wrapped in or_timeout). -/
inductive Ev where
  | lock
  | unlock
  | awaitConnect
  | awaitIsValid
  | awaitSleep
  | awaitRecv
deriving DecidableEq

/-- The awaits named by the claim: manager.connect, manager.is_valid, backoff sleep. -/
def critical (e : Ev) : Bool :=
  match e with
  | Ev.awaitConnect => true
  | Ev.awaitIsValid => true
  | Ev.awaitSleep => true
  | _ => false

/-- The awaits the source really performs with the lock released. -/
def outsideAwait (e : Ev) : Bool :=
  match e with
  | Ev.awaitConnect => true
  | Ev.awaitSleep => true
  | Ev.awaitRecv => true
  | _ => false

/-- Checks that every event selected by isAwait occurs while the lock depth is
zero, threading the depth through lock and unlock events. -/
def awaitsOutsideLock (isAwait : Ev → Bool) : List Ev → Nat → Bool
  | [], _ => true
  | e :: es, d =>
    match e with
    | Ev.lock => awaitsOutsideLock isAwait es (d + 1)
    | Ev.unlock => awaitsOutsideLock isAwait es (d - 1)
    | _ => (!isAwait e || d == 0) && awaitsOutsideLock isAwait es d

/-- Event trace of Pool::get_conn, lib.rs lines 681-731, hand-traced from the
source. Each list element of popped is one idle entry popped by the scan loop,
with its is_valid verdict. The guard named internals, bound on line 685, stays
alive until the return on line 699 or the end of the loop body after the continue
on line 705, so the is_valid await of line 698 happens between its lock and its
unlock. When the deque is exhausted the guard drops at the break (line 710), a
fresh acquisition pushes the waiter (lines 716-725), and the rendezvous is awaited
with no lock held (line 727). With test_on_check_out disabled the first popped
entry is returned without any await. -/
def getConnTrace (test : Bool) : List Bool → List Ev
  | [] => [Ev.lock, Ev.unlock, Ev.lock, Ev.unlock, Ev.awaitRecv]
  | valid :: rest =>
    if test then
      if valid then [Ev.lock, Ev.awaitIsValid, Ev.unlock]
      else Ev.lock :: Ev.awaitIsValid :: Ev.unlock :: getConnTrace test rest
    else [Ev.lock, Ev.unlock]

/-- One connect attempt of the retry loop of add_connection: success and deadline
abort both relock once and finish; a retried failure sleeps and loops. -/
inductive Attempt where
  | ok
  | failAbort
  | failRetry
deriving DecidableEq

/-- Event trace of the retry loop, lib.rs lines 479-506: connect is awaited with no
lock held (the guard was dropped on line 469), success relocks on line 488, the
deadline abort relocks on line 496, and the backoff sleep of line 502 runs with no
lock held. -/
def connectAttemptsTrace : List Attempt → List Ev
  | [] => []
  | Attempt.ok :: _ => [Ev.awaitConnect, Ev.lock, Ev.unlock]
  | Attempt.failAbort :: _ => [Ev.awaitConnect, Ev.lock, Ev.unlock]
  | Attempt.failRetry :: rest => Ev.awaitConnect :: Ev.awaitSleep :: connectAttemptsTrace rest

/-- Event trace of add_connection, lib.rs lines 459-507: the entry section locks
and, full or not, releases (mem::drop on line 469 or the early return on line 465)
before any await. -/
def addConnectionTrace (capacity : Bool) (attempts : List Attempt) : List Ev :=
  if capacity then Ev.lock :: Ev.unlock :: connectAttemptsTrace attempts
  else [Ev.lock, Ev.unlock]

/-- C3 counterexample: the claim that the internals lock is never held across
manager.connect, manager.is_valid or a backoff sleep fails on get_conn with
test_on_check_out enabled: already for a single valid idle entry the is_valid
await occurs at lock depth one, because the guard acquired at the top of the scan
loop is still alive (lib.rs lines 685-699). -/
theorem claim_C3_counterexample :
    ¬ ((∀ (test : Bool) (popped : List Bool),
          awaitsOutsideLock critical (getConnTrace test popped) 0 = true) ∧
       (∀ (capacity : Bool) (attempts : List Attempt),
          awaitsOutsideLock critical (addConnectionTrace capacity attempts) 0 = true)) := by
  intro h
  exact absurd (h.1 true [true]) (by decide)

theorem connectAttempts_outside : ∀ (attempts : List Attempt),
    awaitsOutsideLock outsideAwait (connectAttemptsTrace attempts) 0 = true
  | [] => rfl
  | Attempt.ok :: _ => rfl
  | Attempt.failAbort :: _ => rfl
  | Attempt.failRetry :: rest => by
    simpa [connectAttemptsTrace, awaitsOutsideLock, outsideAwait] using
      connectAttempts_outside rest

theorem getConn_outside : ∀ (test : Bool) (popped : List Bool),
    awaitsOutsideLock outsideAwait (getConnTrace test popped) 0 = true
  | test, [] => by cases test <;> rfl
  | true, true :: _ => rfl
  | true, false :: rest => by
    simpa [getConnTrace, awaitsOutsideLock, outsideAwait] using getConn_outside true rest
  | false, _ :: _ => rfl

/-- C3 amended: the internals lock is never held across manager.connect, a backoff
sleep, or the await of the waiter rendezvous; but with test_on_check_out enabled
get_conn does hold the internals lock across the manager.is_valid await (the guard
acquired at the top of the checkout loop stays alive through validation and the
failure accounting). -/
theorem claim_C3_lock_discipline :
    (∀ (capacity : Bool) (attempts : List Attempt),
        awaitsOutsideLock outsideAwait (addConnectionTrace capacity attempts) 0 = true) ∧
    (∀ (test : Bool) (popped : List Bool),
        awaitsOutsideLock outsideAwait (getConnTrace test popped) 0 = true) := by
  constructor
  · intro capacity attempts
    cases capacity with
    | false => rfl
    | true =>
      simpa [addConnectionTrace, awaitsOutsideLock] using connectAttempts_outside attempts
  · exact getConn_outside

/-- C4: the return path through Drop for PooledConnection does not preserve birth.
Failing input: a connection opened at instant 5, checked out at instant 10
(PooledConnection.checkout = 10), returned unbroken at instant 20 to a pool with
one live connection. The Drop impl (lib.rs line 805) passes self.checkout as the
birth argument of put_back, so the rebuilt idle record carries birth 10, the
checkout instant, not 5; the run path (lib.rs lines 654 and 660) passes the true
birth and preserves 5. Both paths set idle_start to the return instant 20. -/
theorem claim_C4_drop_resets_birth :
    ((pooledConnectionDrop 10 { checkout := 10, conn := { conn := (), birth := 5 } }
        false 20 { waiters := [], conns := [], num_conns := 1, pending_conns := 0 }).conns.map
      (fun ic => (ic.conn.birth, ic.idle_start))) = [(10, 20)] ∧
    ((runPutBack 10 { conn := (), birth := 5 }
        false 20 { waiters := [], conns := [], num_conns := 1, pending_conns := 0 }).conns.map
      (fun ic => (ic.conn.birth, ic.idle_start))) = [(5, 20)] ∧
    (10 : Nat) ≠ 5 := by
  refine ⟨rfl, rfl, by decide⟩

/-- C5 counterexample: with a manager whose connect always fails, no connection is
ever sent to the waiter (the connector never reaches its success section), and the
sender stays queued in waiters, so the rendezvous future is still pending when the
connection_timeout deadline of or_timeout elapses (input none). get then returns
TimedOut, never User(e) for any manager error e: the match on lib.rs lines 727-730
only ever constructs RunError::TimedOut. -/
theorem claim_C5_counterexample :
    getConnWait (C := Unit) (E := Nat) none = Except.error RunError.timedOut ∧
    ¬ ∃ e : Nat, getConnWait (C := Unit) (E := Nat) none
        = Except.error (RunError.user e) := by
  refine ⟨rfl, ?_⟩
  rintro ⟨e, he⟩
  simp [getConnWait, or_timeout] at he

theorem connectLoop_fail_abort {C E : Type} (ct : Nat) (s : PoolState C) (elast : E)
    (nlast : Nat) (hn : ct < nlast) :
    ∀ (pre : List (E × Nat)) (delay : Nat), (∀ p ∈ pre, p.2 ≤ ct) →
      (connectLoop ct 0 s delay
          (pre.map (fun p => Outcome.fail p.1 p.2) ++ [Outcome.fail elast nlast])).2
        = some ({ s with pending_conns := s.pending_conns - 1 }, Except.error elast) := by
  intro pre
  induction pre with
  | nil =>
    intro delay _
    simp only [List.map_nil, List.nil_append, connectLoop]
    rw [if_pos (by omega)]
  | cons p pre ih =>
    intro delay hall
    have hp : p.2 ≤ ct := hall p (List.mem_cons_self p pre)
    simp only [List.map_cons, List.cons_append, connectLoop]
    rw [if_neg (by omega)]
    exact ih (min (ct / 2) (max 200 delay * 2))
      (fun q hq => hall q (List.mem_cons_of_mem _ hq))

/-- C5 amended: with a manager whose connect always fails, get (with no idle entry
available) fails with TimedOut once connection_timeout elapses, while the connector
spawned for the waiter retries until its own deadline passes, then decrements
pending_conns and returns the last error observed, which sink_error delivers to the
error sink, not to the caller of get. The list pre holds the earlier failures
(error, instant) with instants within the deadline, and the last failure lands
strictly after the deadline. -/
theorem claim_C5_timeout_and_sink :
    ∀ (ct : Nat) (pre : List (Nat × Nat)) (elast nlast : Nat) (s : PoolState Unit)
      (sunk : List Nat),
      (∀ p ∈ pre, p.2 ≤ ct) → ct < nlast →
      (connectLoop ct 0 s 0
          (pre.map (fun p => Outcome.fail p.1 p.2) ++ [Outcome.fail elast nlast])).2
        = some ({ s with pending_conns := s.pending_conns - 1 }, Except.error elast) ∧
      (sink_error (T := Unit) sunk (Except.error elast)).2 = sunk ++ [elast] ∧
      getConnWait (C := Unit) (E := Nat) none = Except.error RunError.timedOut := by
  intro ct pre elast nlast s sunk hp hn
  exact ⟨connectLoop_fail_abort ct s elast nlast hn pre 0 hp, rfl, rfl⟩

/-- Witness for C5 amended: connection_timeout 1000, one failure at instant 100,
the last failure with error 9 at instant 1001, one pending connector. -/
theorem claim_C5_witness :
    (∀ p ∈ [((5 : Nat), (100 : Nat))], p.2 ≤ 1000) ∧ ((1000 : Nat) < 1001) ∧
    ((connectLoop 1000 0
          ({ waiters := [], conns := [], num_conns := 0, pending_conns := 1 } :
            PoolState Unit) 0
          ([((5 : Nat), (100 : Nat))].map (fun p => Outcome.fail p.1 p.2)
            ++ [Outcome.fail (9 : Nat) 1001])).2
        = some ({ waiters := [], conns := [], num_conns := 0, pending_conns := 0 },
            Except.error 9) ∧
      (sink_error (T := Unit) ([] : List Nat) (Except.error 9)).2 = [9] ∧
      getConnWait (C := Unit) (E := Nat) none = Except.error RunError.timedOut) :=
  ⟨by decide, by decide,
    claim_C5_timeout_and_sink 1000 [(5, 100)] 9 1001
      { waiters := [], conns := [], num_conns := 0, pending_conns := 1 } []
      (by decide) (by decide)⟩

/-- C10: a waiter whose one-shot rendezvous is closed without a delivery (the
receiver resolves with Canceled before the deadline, modelled as the input
some (error)) makes get return TimedOut just as an elapsed deadline (input none)
does: the match of lib.rs lines 727-730 collapses both cases, so a caller cannot
distinguish a dead rendezvous from an actual timeout, and the TimedOut from a
canceled rendezvous arrives as soon as the rendezvous resolves, possibly before
connection_timeout has elapsed. -/
theorem claim_C10_canceled_is_timeout :
    getConnWait (C := Unit) (E := Nat) (some (Except.error ()))
      = Except.error RunError.timedOut ∧
    getConnWait (C := Unit) (E := Nat) none = Except.error RunError.timedOut ∧
    getConnWait (C := Unit) (E := Nat) (some (Except.error ()))
      = getConnWait (C := Unit) (E := Nat) none :=
  ⟨rfl, rfl, rfl⟩

/-- C6 counterexample: a reaper tick does drop an idle entry for exceeding
idle_timeout even when that leaves fewer than min_idle entries. With min_idle 1,
idle_timeout 50, one idle entry that became idle at instant 0, and a tick at
instant 100, the retain of lib.rs lines 541-550 removes the entry and leaves an
empty idle deque: the retain closure never consults min_idle. -/
theorem claim_C6_counterexample :
    ¬ ∀ (minIdle maxSize t now : Nat) (s : PoolState Unit),
        minIdle ≤ s.conns.length →
        minIdle ≤ (reapStep maxSize (some t) none now s).1.conns.length := by
  intro h
  have h2 := h 1 10 50 100
    { waiters := [],
      conns := [{ conn := { conn := (), birth := 0 }, idle_start := 0 }],
      num_conns := 1, pending_conns := 0 } (by decide)
  exact absurd h2 (by decide)

/-- C6 amended: the reaper drops every idle entry past idle_timeout regardless of
min_idle: when every idle entry of the state has dwelt at least idle_timeout, the
tick empties the idle deque, decrements num_conns by the full former idle count,
and schedules a replenishment exactly when the remaining count leaves capacity;
maintaining min_idle is left to that replenishment. -/
theorem claim_C6_reaper_ignores_min_idle :
    ∀ (maxSize t now : Nat) (s : PoolState Unit),
      (∀ ic ∈ s.conns, t ≤ now - ic.idle_start) →
      (reapStep maxSize (some t) none now s).1.conns = [] ∧
      (reapStep maxSize (some t) none now s).1.num_conns
        = s.num_conns - s.conns.length ∧
      (reapStep maxSize (some t) none now s).2
        = decide (s.num_conns - s.conns.length + s.pending_conns < maxSize) := by
  intro maxSize t now s hall
  have hfil : s.conns.filter (reapKeep (some t) none now) = [] := by
    rw [List.filter_eq_nil_iff]
    intro ic hic
    have ht := hall ic hic
    simp [reapKeep]
    omega
  refine ⟨?_, ?_, ?_⟩ <;>
    simp [reapStep, drop_connections, hfil]

/-- Witness for C6 amended: two entries, idle since instants 0 and 2, all past the
idle_timeout 50 at instant 100; both are dropped, num_conns falls from 2 to 0, and
a replenishment is scheduled since 0 < 10. -/
theorem claim_C6_witness :
    (∀ ic ∈ ([{ conn := { conn := (), birth := 0 }, idle_start := 0 },
              { conn := { conn := (), birth := 1 }, idle_start := 2 }] :
              List (IdleConn Unit)),
        50 ≤ 100 - ic.idle_start) ∧
    ((reapStep 10 (some 50) none 100
          { waiters := [],
            conns := [{ conn := { conn := (), birth := 0 }, idle_start := 0 },
                      { conn := { conn := (), birth := 1 }, idle_start := 2 }],
            num_conns := 2, pending_conns := 0 }).1.conns = ([] : List (IdleConn Unit)) ∧
      (reapStep 10 (some 50) none 100
          { waiters := [],
            conns := [{ conn := { conn := (), birth := 0 }, idle_start := 0 },
                      { conn := { conn := (), birth := 1 }, idle_start := 2 }],
            num_conns := 2, pending_conns := 0 }).1.num_conns = 2 - 2 ∧
      (reapStep 10 (some 50) none 100
          { waiters := [],
            conns := [{ conn := { conn := (), birth := 0 }, idle_start := 0 },
                      { conn := { conn := (), birth := 1 }, idle_start := 2 }],
            num_conns := 2, pending_conns := 0 }).2 = decide (2 - 2 + 0 < 10)) :=
  ⟨by decide, claim_C6_reaper_ignores_min_idle 10 50 100 _ (by decide)⟩

/-- C7 counterexample: with the default connection_timeout of 30000 ms, so that
ct / 2 = 15000 exceeds 200 ms, the sleep after the first connect failure is not
200 ms: lines 500-501 double the delay before sleeping, so the first sleep is
min (ct / 2) 400 = 400 ms. -/
theorem claim_C7_counterexample :
    (200 : Nat) ≤ 30000 / 2 ∧
    (connectLoop (C := Unit) (E := Unit) 30000 0 initState 0
        [Outcome.fail () 0]).1.head? = some 400 ∧
    some (400 : Nat) ≠ some 200 := by
  decide

theorem connectLoop_sleeps_replicate (ct : Nat) :
    ∀ (n : Nat) (delay : Nat),
      (connectLoop (C := Unit) (E := Unit) ct 0 initState delay
          (List.replicate n (Outcome.fail () 0))).1 = backoffDelays ct n delay
  | 0, delay => rfl
  | n + 1, delay => by
    simp only [List.replicate_succ, connectLoop, backoffDelays]
    rw [if_neg (by omega)]
    exact congrArg (fun l => min (ct / 2) (max 200 delay * 2) :: l)
      (connectLoop_sleeps_replicate ct n (min (ct / 2) (max 200 delay * 2)))

theorem backoffDelays_le (ct : Nat) :
    ∀ (n delay : Nat), ∀ d ∈ backoffDelays ct n delay, d ≤ ct / 2
  | 0, delay => by simp [backoffDelays]
  | n + 1, delay => by
    simp only [backoffDelays, List.mem_cons]
    rintro d (rfl | hd)
    · exact Nat.min_le_left _ _
    · exact backoffDelays_le ct n _ d hd

/-- C7 amended: the backoff sleeps of the retry loop follow the recurrence of
lines 500-501: with delay starting at 0, each sleep is
min (connection_timeout / 2) (max 200 delay * 2) and becomes the new delay. In
particular the sleep after the first failure is min (connection_timeout / 2) 400
milliseconds, not 200 (the delay is doubled before the first sleep), and every
sleep is capped at connection_timeout / 2. -/
theorem claim_C7_backoff :
    ∀ (ct n : Nat),
      (connectLoop (C := Unit) (E := Unit) ct 0 initState 0
          (List.replicate n (Outcome.fail () 0))).1 = backoffDelays ct n 0 ∧
      (0 < n → (backoffDelays ct n 0).head? = some (min (ct / 2) 400)) ∧
      (∀ d ∈ backoffDelays ct n 0, d ≤ ct / 2) := by
  intro ct n
  refine ⟨connectLoop_sleeps_replicate ct n 0, ?_, backoffDelays_le ct n 0⟩
  intro hn
  cases n with
  | zero => omega
  | succ m => simp [backoffDelays]

/-- Witness for C7 amended: connection_timeout 30000 and two failures give sleeps
400 then 800. -/
theorem claim_C7_witness :
    ((connectLoop (C := Unit) (E := Unit) 30000 0 initState 0
        (List.replicate 2 (Outcome.fail () 0))).1 = backoffDelays 30000 2 0) ∧
    ((backoffDelays 30000 2 0).head? = some (min (30000 / 2) 400)) ∧
    (∀ d ∈ backoffDelays 30000 2 0, d ≤ 30000 / 2) :=
  ⟨(claim_C7_backoff 30000 2).1, (claim_C7_backoff 30000 2).2.1 (by decide),
    (claim_C7_backoff 30000 2).2.2⟩

/-- C8 counterexample: the deadline comparison of lib.rs line 495 is strict. At
elapsed time exactly equal to connection_timeout (start 0, failure at instant
1000, connection_timeout 1000) the connector does not abort: it takes the backoff
branch and sleeps (the sleeps list is [400], not []), refuting the claim that an
elapsed time of at least connection_timeout already makes it return the error. -/
theorem claim_C8_counterexample :
    ¬ ∀ (ct now e : Nat) (s : PoolState Unit) (rest : List (Outcome Unit Nat)),
        ct ≤ now - 0 →
        connectLoop ct 0 s 0 (Outcome.fail e now :: rest)
          = ([], some ({ s with pending_conns := s.pending_conns - 1 },
              Except.error e)) := by
  intro h
  have h2 := h 1000 1000 7 initState [] (by decide)
  exact absurd (congrArg Prod.fst h2) (by decide)

/-- C8 amended: when manager.connect fails and the elapsed time since the
connector started is strictly greater than connection_timeout, the connector
reacquires the lock, decrements pending_conns by exactly one, and returns that
last error without retrying further (no further sleep or attempt: the remaining
outcomes are ignored and the sleeps list is empty). -/
theorem claim_C8_strict_deadline :
    ∀ (ct start now e delay : Nat) (s : PoolState Unit) (rest : List (Outcome Unit Nat)),
      ct < now - start → 0 < s.pending_conns →
      connectLoop ct start s delay (Outcome.fail e now :: rest)
        = ([], some ({ s with pending_conns := s.pending_conns - 1 },
            Except.error e)) ∧
      ({ s with pending_conns := s.pending_conns - 1 } : PoolState Unit).pending_conns + 1
        = s.pending_conns := by
  intro ct start now e delay s rest h1 h2
  constructor
  · simp only [connectLoop]
    rw [if_pos h1]
  · simp only []
    omega

/-- Witness for C8 amended: connection_timeout 10, failure with error 3 at instant
11, one pending connector; the loop aborts at once. -/
theorem claim_C8_witness :
    ((10 : Nat) < 11 - 0) ∧ ((0 : Nat) < 1) ∧
    (connectLoop 10 0
        ({ waiters := [], conns := [], num_conns := 0, pending_conns := 1 } :
          PoolState Unit) 0 [Outcome.fail (3 : Nat) 11]
      = ([], some ({ waiters := [], conns := [], num_conns := 0, pending_conns := 0 },
          Except.error 3)) ∧
      ({ waiters := [], conns := [], num_conns := 0, pending_conns := 0 } :
          PoolState Unit).pending_conns + 1 = 1) :=
  ⟨by decide, by decide,
    claim_C8_strict_deadline 10 0 11 3 0
      { waiters := [], conns := [], num_conns := 0, pending_conns := 1 } []
      (by decide) (by decide)⟩

/-- C9: replenish_idle_connections reads the counters and the idle length under one
lock acquisition and then spawns max(0, min(min_idle, idle + slots) - idle)
connector tasks where slots = max_size - num_conns - pending_conns: the loop bound
max(idle, min(desired, idle + slots)) - idle of line 607 equals that expression
(over the integers, given the counter invariant), and with min_idle unset the
desired count defaults to 0 and no task is spawned. -/
theorem claim_C9_replenish_count :
    ∀ (maxSize : Nat) (minIdle : Option Nat) (s : PoolState Unit),
      s.num_conns + s.pending_conns ≤ maxSize →
      ((replenish_counts maxSize minIdle s : Int)
          = max 0 (min ((minIdle.getD 0 : Nat) : Int)
              ((s.conns.length : Int)
                + ((maxSize : Int) - (s.num_conns : Int) - (s.pending_conns : Int)))
            - (s.conns.length : Int)) ∧
        replenish_counts maxSize none s = 0) := by
  intro maxSize minIdle s h
  constructor
  · simp only [replenish_counts]
    omega
  · simp only [replenish_counts, Option.getD_none]
    omega

/-- Witness for C9: max_size 10, min_idle 4, one idle entry, two live and one
pending connection: 3 connectors are spawned, matching the integer formula. -/
theorem claim_C9_witness :
    ((2 : Nat) + 1 ≤ 10) ∧
    (((replenish_counts 10 (some 4)
          { waiters := [], conns := [{ conn := { conn := (), birth := 0 }, idle_start := 0 }],
            num_conns := 2, pending_conns := 1 } : Nat) : Int)
        = max 0 (min (((some 4).getD 0 : Nat) : Int) ((1 : Int) + ((10 : Int) - 2 - 1))
            - (1 : Int)) ∧
      replenish_counts 10 none
        { waiters := [], conns := [{ conn := { conn := (), birth := 0 }, idle_start := 0 }],
          num_conns := 2, pending_conns := 1 } = 0) :=
  ⟨by decide,
    claim_C9_replenish_count 10 (some 4)
      { waiters := [], conns := [{ conn := { conn := (), birth := 0 }, idle_start := 0 }],
        num_conns := 2, pending_conns := 1 } (by decide)⟩

end BB8
